import Mathlib

/-!
Verification development for the `pg` command of `nu_plugin_pg`
(`src/src/main.rs`).  The program executes a SQL script against a
PostgreSQL server and converts the wire-format result rows into the
host shell's generic value model.

The embedding below translates the program's pure logic directly from
the source.  External effects (the database server, the TLS stack, the
bulk-copy channel) are parameterised by an oracle structure `Db`, and
the statement dispatcher additionally produces an explicit event trace
so that ordering and abort behaviour can be stated.
-/

set_option autoImplicit false

namespace PgPlugin

/-! ## Value model

`nu_protocol::Value`, restricted to the variants the program constructs
or inspects (`main.rs` constructs nothing/bool/int/float/string/list/
record/date/duration and matches on nothing/string/binary of its input).
-/

/-- Stand-in for chrono's `DateTime<FixedOffset>`: an absolute instant
together with a UTC offset.  The program only passes such values
through (`Value::date`), never computes with them. -/
structure DateTimeFixedOffset where
  instantMicros : Int
  offsetSeconds : Int

/-- Stand-in for chrono's `NaiveDateTime`, reduced to the accessors the
program reads (`year`, `month`, `day`, `hour`, `minute`, `second`,
`nanosecond`). -/
structure NaiveDateTime where
  year : Int
  month : Nat
  day : Nat
  hour : Nat
  minute : Nat
  second : Nat
  nanosecond : Nat

/-- Stand-in for chrono's `NaiveTime`, reduced to the accessors the
program reads. -/
structure NaiveTime where
  hour : Nat
  minute : Nat
  second : Nat
  nanosecond : Nat

/-- The generic value tree (`nu_protocol::Value`).  A record is an
ordered field list; `float` carries an f64 payload that the program
only moves, never computes with. -/
inductive Value where
  | nothing : Value
  | bool : Bool → Value
  | int : Int → Value
  | float : Float → Value
  | string : String → Value
  | binary : List Nat → Value
  | list : List Value → Value
  | record : List (String × Value) → Value
  | date : DateTimeFixedOffset → Value
  | duration : Int → Value

/-- Modelled from the spec: `nu_protocol::Record::insert` is third-party
code (not under `src/`); per §3 of the spec a record's fields preserve
insertion order and, on a field-name collision, the last write wins —
the existing field keeps its position and its value is replaced. -/
def recInsert (acc : List (String × Value)) (k : String) (v : Value) :
    List (String × Value) :=
  if acc.any (fun p => p.1 == k) then
    acc.map (fun p => if p.1 == k then (p.1, v) else p)
  else
    acc ++ [(k, v)]

/-- Display name of a value's type, as interpolated into the input-type
error message (`input.get_type()` at `main.rs:76`).  The display of
composite types is a simplified stand-in for `nu_protocol::Type`'s
third-party `Display`; the claims only exercise the leaf cases. -/
def Value.get_type : Value → String
  | .nothing => "nothing"
  | .bool _ => "bool"
  | .int _ => "int"
  | .float _ => "float"
  | .string _ => "string"
  | .binary _ => "binary"
  | .list _ => "list<any>"
  | .record _ => "record"
  | .date _ => "date"
  | .duration _ => "duration"

/-! ## JSON model (`serde_json::Value` and `json_to_nu`, `main.rs:281-314`) -/

/-- Modelled from the spec: `serde_json::Number` is third-party and the
feature set chosen in the repository's `Cargo.toml` is not under
`src/`.  `int` covers numbers exactly representable in the model's
64-bit integer (`as_i64` succeeds), `float` those only representable as
an f64, and `big` those representable as neither (the
arbitrary-precision case), carrying their decimal text. -/
inductive JNumber where
  | int : Int → JNumber
  | float : Float → JNumber
  | big : String → JNumber

/-- `serde_json::Number::as_i64`: succeeds exactly when the number is an
integer in 64-bit range. -/
def JNumber.as_i64 : JNumber → Option Int
  | .int n => some n
  | _ => none

/-- `serde_json::Number::as_f64`: succeeds for anything representable as
an f64. -/
def JNumber.as_f64 : JNumber → Option Float
  | .int n => some (Float.ofInt n)
  | .float x => some x
  | .big _ => none

/-- `serde_json::Number::to_string`. -/
def JNumber.to_string : JNumber → String
  | .int n => toString n
  | .float x => toString x
  | .big s => s

/-- `serde_json::Value`.  Modelled from the spec: a JSON object is an
ordered association list (the spec requires object key order to be
preserved, i.e. the `preserve_order` map); keys of a parsed JSON map
are pairwise distinct. -/
inductive Json where
  | null : Json
  | bool : Bool → Json
  | num : JNumber → Json
  | str : String → Json
  | arr : List Json → Json
  | obj : List (String × Json) → Json

mutual

/-- `json_to_nu` (`main.rs:281-314`): recursive conversion of a JSON
document into the value model. -/
def json_to_nu : Json → Value
  | Json.null => Value.nothing
  | Json.bool b => Value.bool b
  | Json.num n =>
    match n.as_i64 with
    | some v => Value.int v
    | none =>
      match n.as_f64 with
      | some v => Value.float v
      | none => Value.string n.to_string
  | Json.str s => Value.string s
  | Json.arr vs => Value.list (jsonListToNu vs)
  | Json.obj kvs => Value.record (jsonObjToNu [] kvs)

/-- The `values.into_iter().map(json_to_nu).collect()` of the array arm. -/
def jsonListToNu : List Json → List Value
  | [] => []
  | v :: vs => json_to_nu v :: jsonListToNu vs

/-- The object arm's loop: `record.insert(k, json_to_nu(v))` over the
map's entries in order. -/
def jsonObjToNu (acc : List (String × Value)) :
    List (String × Json) → List (String × Value)
  | [] => acc
  | (k, v) :: rest => jsonObjToNu (recInsert acc k (json_to_nu v)) rest

end

/-! ## Wire types and cells -/

/-- The column wire types the decoder distinguishes
(`postgres::types::Type`, as matched at `main.rs:154-198`).  `other`
covers every unsupported type and carries its display name (the
`{type}` interpolated into the error message). -/
inductive PgType where
  | text | varchar | bpchar | name
  | bool | char
  | int2 | int4 | int8
  | float4 | float8
  | json | jsonb
  | timestamptz | timestamp | time
  | oid
  | other : String → PgType
  deriving DecidableEq

/-- The supported set: everything the decoder's match at
`main.rs:154-192` handles; only the catch-all arm is unsupported. -/
def PgType.supported : PgType → Bool
  | .other _ => false
  | _ => true

/-- A decoded wire value, by payload shape.  Integer payloads of all
widths are carried widened (the program widens every integer type to
i64 via `.into()`); float payloads likewise as f64. -/
inductive PgValue where
  | text : String → PgValue
  | boolean : Bool → PgValue
  | int : Int → PgValue
  | float : Float → PgValue
  | json : Json → PgValue
  | timestamptz : DateTimeFixedOffset → PgValue
  | timestamp : NaiveDateTime → PgValue
  | time : NaiveTime → PgValue
  | oid : Nat → PgValue

/-- One column position of a result row: `None` is SQL NULL
(`row.get::<_, Option<T>>` at `main.rs:215`). -/
abbrev Cell := Option PgValue

/-- A result column descriptor (`postgres::Column`): name and wire type. -/
structure Column where
  name : String
  ty : PgType

def PgValue.asText : PgValue → Option String
  | .text s => some s
  | _ => none

def PgValue.asBool : PgValue → Option Bool
  | .boolean b => some b
  | _ => none

def PgValue.asInt : PgValue → Option Int
  | .int n => some n
  | _ => none

def PgValue.asFloat : PgValue → Option Float
  | .float x => some x
  | _ => none

def PgValue.asJson : PgValue → Option Json
  | .json j => some j
  | _ => none

def PgValue.asTimestamptz : PgValue → Option DateTimeFixedOffset
  | .timestamptz d => some d
  | _ => none

def PgValue.asTimestamp : PgValue → Option NaiveDateTime
  | .timestamp d => some d
  | _ => none

def PgValue.asTime : PgValue → Option NaiveTime
  | .time t => some t
  | _ => none

def PgValue.asOid : PgValue → Option Nat
  | .oid n => some n
  | _ => none

/-- Whether a cell's payload (if any) matches the declared column type;
SQL NULL matches every type.  This is the well-typedness guarantee the
server's protocol provides for each declared column. -/
def pvMatches : PgType → PgValue → Bool
  | .text, .text _ => true
  | .varchar, .text _ => true
  | .bpchar, .text _ => true
  | .name, .text _ => true
  | .bool, .boolean _ => true
  | .char, .int _ => true
  | .int2, .int _ => true
  | .int4, .int _ => true
  | .int8, .int _ => true
  | .float4, .float _ => true
  | .float8, .float _ => true
  | .json, .json _ => true
  | .jsonb, .json _ => true
  | .timestamptz, .timestamptz _ => true
  | .timestamp, .timestamp _ => true
  | .time, .time _ => true
  | .oid, .oid _ => true
  | _, _ => false

/-- A cell is acceptable for a type when it is NULL or its payload
matches the type. -/
def cellOk (ty : PgType) : Cell → Bool
  | none => true
  | some pv => pvMatches ty pv

/-! ## Row decoding (`execute_query` and `row_get_opt`, `main.rs:141-218`) -/

/-- `row_get_opt` (`main.rs:210-218`): fetch column `i` as `Option<T>`;
`None` (SQL NULL) becomes the null node, otherwise the typed extraction
is applied.  The library panics when the stored payload does not match
the requested Rust type; that unreachable branch is modelled as an
error value. -/
def row_get_opt {A : Type} (cell : Cell) (extract : PgValue → Option A)
    (f : A → Value) : Except String Value :=
  match cell with
  | none => .ok Value.nothing
  | some pv =>
    match extract pv with
    | some a => .ok (f a)
    | none => .error "row value does not match its declared column type"

/-- The TIMESTAMP arm (`main.rs:171-182`): decompose a naive datetime
into a record of integer fields, inserted in source order. -/
def naiveDateTimeToValue (dt : NaiveDateTime) : Value :=
  let r := recInsert [] "year" (Value.int dt.year)
  let r := recInsert r "month" (Value.int dt.month)
  let r := recInsert r "day" (Value.int dt.day)
  let r := recInsert r "hour" (Value.int dt.hour)
  let r := recInsert r "minute" (Value.int dt.minute)
  let r := recInsert r "second" (Value.int dt.second)
  let r := recInsert r "nanosecond" (Value.int dt.nanosecond)
  Value.record r

/-- The TIME arm (`main.rs:183-191`): hour is wrapped as a duration
quantity, the rest as integers, inserted in source order. -/
def naiveTimeToValue (t : NaiveTime) : Value :=
  let r := recInsert [] "hour" (Value.duration t.hour)
  let r := recInsert r "minute" (Value.int t.minute)
  let r := recInsert r "second" (Value.int t.second)
  let r := recInsert r "nanosecond" (Value.int t.nanosecond)
  Value.record r

/-- One column's decoding: the type-directed dispatch of
`main.rs:154-198`.  The catch-all arm produces the unsupported-type
error naming the column and the type. -/
def decodeCell (col : Column) (cell : Cell) : Except String Value :=
  match col.ty with
  | PgType.text => row_get_opt cell PgValue.asText (fun s => Value.string s)
  | PgType.varchar => row_get_opt cell PgValue.asText (fun s => Value.string s)
  | PgType.bpchar => row_get_opt cell PgValue.asText (fun s => Value.string s)
  | PgType.name => row_get_opt cell PgValue.asText (fun s => Value.string s)
  | PgType.bool => row_get_opt cell PgValue.asBool (fun b => Value.bool b)
  | PgType.char => row_get_opt cell PgValue.asInt (fun n => Value.int n)
  | PgType.int2 => row_get_opt cell PgValue.asInt (fun n => Value.int n)
  | PgType.int4 => row_get_opt cell PgValue.asInt (fun n => Value.int n)
  | PgType.int8 => row_get_opt cell PgValue.asInt (fun n => Value.int n)
  | PgType.float4 => row_get_opt cell PgValue.asFloat (fun x => Value.float x)
  | PgType.float8 => row_get_opt cell PgValue.asFloat (fun x => Value.float x)
  | PgType.json => row_get_opt cell PgValue.asJson json_to_nu
  | PgType.jsonb => row_get_opt cell PgValue.asJson json_to_nu
  | PgType.timestamptz => row_get_opt cell PgValue.asTimestamptz (fun d => Value.date d)
  | PgType.timestamp => row_get_opt cell PgValue.asTimestamp naiveDateTimeToValue
  | PgType.time => row_get_opt cell PgValue.asTime naiveTimeToValue
  | PgType.oid => row_get_opt cell PgValue.asOid (fun n => Value.int n)
  | PgType.other tyname =>
    .error ("column `" ++ col.name ++ "` has unsupported type `" ++ tyname ++ "`")

/-- The successful result of one column's decoding (total companion of
`decodeCell`, used to state what the decoder returns). -/
def decodeCellD (col : Column) (cell : Cell) : Value :=
  match decodeCell col cell with
  | .ok v => v
  | .error _ => Value.nothing

/-- The per-row column loop of `main.rs:153-202`: decode each column in
order and insert it into the row record; the first column error aborts
the row (and with it the statement's decoding). -/
def decodeRowGo (acc : List (String × Value)) :
    List (Column × Cell) → Except String (List (String × Value))
  | [] => .ok acc
  | p :: rest =>
    match decodeCell p.1 p.2 with
    | .error e => .error e
    | .ok v => decodeRowGo (recInsert acc p.1.name v) rest

/-- Decode one result row against its column descriptors. -/
def decodeRow (cols : List Column) (cells : List Cell) :
    Except String (List (String × Value)) :=
  decodeRowGo [] (cols.zip cells)

/-- The row loop of `execute_query` (`main.rs:147-205`): one record per
row, first failing row aborts. -/
def decodeRows (cols : List Column) : List (List Cell) → Except String (List Value)
  | [] => .ok []
  | r :: rest =>
    match decodeRow cols r with
    | .error e => .error e
    | .ok fields =>
      match decodeRows cols rest with
      | .error e => .error e
      | .ok vs => .ok (Value.record fields :: vs)

/-! ## External effect oracle -/

/-- Oracle for the program's external calls: connection establishment
(`config.connect`, `main.rs:83`), `query_raw` row fetching, and the
three fallible bulk-copy calls (`copy_in`, `write_all`, `finish`,
`main.rs:113-123`).  A `query` answer is the column descriptors plus
all fetched rows. -/
structure Db where
  connect : Except String Unit
  query : String → Except String (List Column × List (List Cell))
  copyIn : String → Except String Unit
  copyWrite : String → List Nat → Except String Unit
  copyFinish : String → Except String Unit

/-- `execute_query` (`main.rs:141-208`): run the query, decode every
row, and wrap the records in one list value. -/
def execute_query (db : Db) (q : String) : Except String Value :=
  match db.query q with
  | .error e => .error e
  | .ok (cols, rows) =>
    match decodeRows cols rows with
    | .error e => .error e
    | .ok vs => .ok (Value.list vs)

/-! ## Statement dispatcher (`PgCommand::run`, `main.rs:59-138`) -/

/-- A parsed statement, as classified at the dispatch site
(`main.rs:97-128`): the match on `NodeEnum` distinguishes
`SelectStmt`, `CopyStmt` (with its `is_from` and `is_program` flags),
and everything else; each carries its deparsed query text. -/
inductive Stmt where
  | select : String → Stmt
  | copy : Bool → Bool → String → Stmt
  | other : String → Stmt
  deriving DecidableEq

/-- Observable external actions of one invocation, in order: the single
connection attempt, each issued query, and the bulk-copy channel
operations (open, the written bytes, finalize). -/
inductive Event where
  | connect : Event
  | exec : String → Event
  | copyOpen : String → Event
  | copyWrite : String → List Nat → Event
  | copyFinish : String → Event
  deriving DecidableEq

/-- One iteration of the statement loop (`main.rs:97-128`): the events
it performs and either its contribution to `output_values` or the error
that aborts the script.  A `SelectStmt` pushes its decoded list; a
`CopyStmt` that is neither `FROM` nor `PROGRAM` is the unsupported
bulk-copy-out and fails before touching the connection; a copy routed
through `execute_query` (`!is_from || is_program`) and any other
statement contribute nothing. -/
def stepStmt (db : Db) (input : List Nat) : Stmt → List Event × Except String (List Value)
  | Stmt.select q =>
    match execute_query db q with
    | .error e => ([Event.exec q], .error e)
    | .ok v => ([Event.exec q], .ok [v])
  | Stmt.copy isFrom isProgram q =>
    if !isFrom && !isProgram then
      ([], .error "`COPY … TO STDOUT` is not supported")
    else if !isFrom || isProgram then
      match execute_query db q with
      | .error e => ([Event.exec q], .error e)
      | .ok _ => ([Event.exec q], .ok [])
    else
      match db.copyIn q with
      | .error e => ([], .error e)
      | .ok _ =>
        match db.copyWrite q input with
        | .error e => ([Event.copyOpen q], .error e)
        | .ok _ =>
          match db.copyFinish q with
          | .error e => ([Event.copyOpen q, Event.copyWrite q input], .error e)
          | .ok _ =>
            ([Event.copyOpen q, Event.copyWrite q input, Event.copyFinish q], .ok [])
  | Stmt.other q =>
    match execute_query db q with
    | .error e => ([Event.exec q], .error e)
    | .ok _ => ([Event.exec q], .ok [])

/-- The statement loop of `main.rs:90-129`: statements run in source
order; the first failure aborts the rest, keeping the events already
performed. -/
def runStmts (db : Db) (input : List Nat) : List Stmt → List Event × Except String (List Value)
  | [] => ([], .ok [])
  | s :: rest =>
    match stepStmt db input s with
    | (tr, .error e) => (tr, .error e)
    | (tr, .ok outs) =>
      match runStmts db input rest with
      | (tr2, .error e) => (tr ++ tr2, .error e)
      | (tr2, .ok outs2) => (tr ++ tr2, .ok (outs ++ outs2))

/-- The final aggregation (`main.rs:133-137`): a single collected output
is returned unwrapped, otherwise the outputs are wrapped in a list
(which is the empty list when no statement produced output). -/
def aggregate : List Value → Value
  | [v] => v
  | outs => Value.list outs

/-- UTF-8 bytes of a string (`val.as_bytes()`). -/
def strBytes (s : String) : List Nat :=
  s.toUTF8.toList.map (fun b => b.toNat)

/-- The pipeline-input match of `main.rs:69-79`: `Nothing` is the empty
byte input, strings contribute their UTF-8 bytes, binary its bytes, and
every other value type fails with an error naming the actual type. -/
def coerceInput : Value → Except String (List Nat)
  | Value.nothing => .ok []
  | Value.string s => .ok (strBytes s)
  | Value.binary bs => .ok bs
  | v => .error ("expected `string` or `binary` input, but got `" ++ v.get_type ++ "`")

/-- Whether the input value is one of the three accepted shapes of the
match at `main.rs:69-79`. -/
def Value.acceptedInput : Value → Bool
  | .nothing => true
  | .string _ => true
  | .binary _ => true
  | _ => false

/-- `PgCommand::run` (`main.rs:59-138`) with the host-protocol argument
handling stripped: coerce the pipeline input, connect (a single attempt
through the negotiator, `main.rs:83`), parse the script (`main.rs:87`,
whose result is the `parsed` argument), run the statements, aggregate.
Returns the event trace together with the result. -/
def run (db : Db) (parsed : Except String (List Stmt)) (input : Value) :
    List Event × Except String Value :=
  match coerceInput input with
  | .error e => ([], .error e)
  | .ok bytes =>
    match db.connect with
    | .error e => ([Event.connect], .error e)
    | .ok _ =>
      match parsed with
      | .error e => ([Event.connect], .error e)
      | .ok stmts =>
        match runStmts db bytes stmts with
        | (tr, .error e) => (Event.connect :: tr, .error e)
        | (tr, .ok outs) => (Event.connect :: tr, .ok (aggregate outs))

/-- The list of decoded outputs of the row-producing (`SelectStmt`)
statements of a script, in source order: the reference description of
what `output_values` holds when the loop finishes. -/
def specSelectOutputs (db : Db) : List Stmt → Except String (List Value)
  | [] => .ok []
  | Stmt.select q :: rest =>
    match execute_query db q with
    | .error e => .error e
    | .ok v =>
      match specSelectOutputs db rest with
      | .error e => .error e
      | .ok vs => .ok (v :: vs)
  | Stmt.copy _ _ _ :: rest => specSelectOutputs db rest
  | Stmt.other _ :: rest => specSelectOutputs db rest

/-! ## Connection negotiator

Modelled from the spec: the SSL-mode-aware negotiation happens inside
the third-party postgres driver invoked at `config.connect(tls_connector())`
(`main.rs:83`) and is not part of this repository's sources.  Spec §4.1:
`disable` tries plaintext only, `require` TLS only, `prefer` tries TLS
first and falls back to plaintext, combining both failure messages when
both attempts fail; any other mode is a distinct unimplemented-mode
error. -/

/-- SSL mode of the connection parameters. -/
inductive SslMode where
  | disable : SslMode
  | prefer : SslMode
  | require : SslMode
  | otherMode : String → SslMode

/-- A connection error: a single underlying failure, the combined
TLS-plus-plaintext failure of `prefer`, or the unimplemented-mode
error. -/
inductive ConnError where
  | single : String → ConnError
  | both : String → String → ConnError
  | unimplementedMode : String → ConnError

/-- The underlying failure messages an error carries. -/
def ConnError.messages : ConnError → List String
  | .single m => [m]
  | .both m1 m2 => [m1, m2]
  | .unimplementedMode m => [m]

/-- Modelled from the spec (§4.1): connection negotiation as a function
of the mode and of the outcomes of the TLS attempt and of the plaintext
attempt. -/
def negotiate (mode : SslMode) (tlsAttempt plainAttempt : Except String Unit) :
    Except ConnError Unit :=
  match mode with
  | SslMode.disable =>
    match plainAttempt with
    | .ok _ => .ok ()
    | .error e => .error (ConnError.single e)
  | SslMode.require =>
    match tlsAttempt with
    | .ok _ => .ok ()
    | .error e => .error (ConnError.single e)
  | SslMode.prefer =>
    match tlsAttempt with
    | .ok _ => .ok ()
    | .error e1 =>
      match plainAttempt with
      | .ok _ => .ok ()
      | .error e2 => .error (ConnError.both e1 e2)
  | SslMode.otherMode s => .error (ConnError.unimplementedMode s)

/-- A concrete oracle on which every external call succeeds and every
query returns no columns and no rows; used to instantiate the
hypothesis-bearing claims on concrete inputs. -/
def db0 : Db where
  connect := .ok ()
  query := fun _ => .ok ([], [])
  copyIn := fun _ => .ok ()
  copyWrite := fun _ _ => .ok ()
  copyFinish := fun _ => .ok ()

/-! ## Helper lemmas -/

lemma recInsert_fresh (acc : List (String × Value)) (k : String) (v : Value)
    (h : ∀ p ∈ acc, p.1 ≠ k) : recInsert acc k v = acc ++ [(k, v)] := by
  have hany : acc.any (fun p => p.1 == k) = false := by
    rw [List.any_eq_false]
    intro p hp
    simpa using h p hp
  simp [recInsert, hany]

lemma decodeCell_ok (col : Column) (cell : Cell)
    (hs : col.ty.supported = true) (hc : cellOk col.ty cell = true) :
    decodeCell col cell = .ok (decodeCellD col cell) := by
  obtain ⟨nm, ty⟩ := col
  cases cell with
  | none =>
    cases ty <;> first | rfl | simp [PgType.supported] at hs
  | some pv =>
    cases ty <;> cases pv <;>
      first
        | rfl
        | simp [cellOk, pvMatches] at hc

lemma decodeCellD_none (col : Column) : decodeCellD col none = Value.nothing := by
  obtain ⟨nm, ty⟩ := col
  cases ty <;> rfl

lemma decodeRowGo_eq (pairs : List (Column × Cell)) (acc : List (String × Value))
    (hs : ∀ p ∈ pairs, p.1.ty.supported = true)
    (hc : ∀ p ∈ pairs, cellOk p.1.ty p.2 = true)
    (hfresh : ∀ p ∈ pairs, ∀ a ∈ acc, a.1 ≠ p.1.name)
    (hnd : (pairs.map (fun p => p.1.name)).Nodup) :
    decodeRowGo acc pairs =
      .ok (acc ++ pairs.map (fun p => (p.1.name, decodeCellD p.1 p.2))) := by
  induction pairs generalizing acc with
  | nil => simp [decodeRowGo]
  | cons p rest ih =>
    have hcell : decodeCell p.1 p.2 = .ok (decodeCellD p.1 p.2) :=
      decodeCell_ok p.1 p.2 (hs p (by simp)) (hc p (by simp))
    have hins : recInsert acc p.1.name (decodeCellD p.1 p.2)
        = acc ++ [(p.1.name, decodeCellD p.1 p.2)] :=
      recInsert_fresh acc p.1.name _ (fun a ha => hfresh p (by simp) a ha)
    rw [List.map_cons] at hnd
    obtain ⟨hnotmem, hnd'⟩ := List.nodup_cons.mp hnd
    have hih := ih (acc ++ [(p.1.name, decodeCellD p.1 p.2)])
      (fun q hq => hs q (by simp [hq]))
      (fun q hq => hc q (by simp [hq]))
      (by
        intro q hq a ha
        rcases List.mem_append.mp ha with ha2 | ha2
        · exact hfresh q (by simp [hq]) a ha2
        · have ha3 : a = (p.1.name, decodeCellD p.1 p.2) := by simpa using ha2
          subst ha3
          show p.1.name ≠ q.1.name
          intro hcontra
          exact hnotmem (hcontra ▸ List.mem_map_of_mem _ hq))
      hnd'
    simp only [decodeRowGo, hcell, hins, hih]
    simp

lemma decodeRowGo_append (pairs rest : List (Column × Cell)) (acc : List (String × Value))
    (hs : ∀ p ∈ pairs, p.1.ty.supported = true)
    (hc : ∀ p ∈ pairs, cellOk p.1.ty p.2 = true) :
    ∃ acc2, decodeRowGo acc (pairs ++ rest) = decodeRowGo acc2 rest := by
  induction pairs generalizing acc with
  | nil => exact ⟨acc, rfl⟩
  | cons p ps ih =>
    have hcell : decodeCell p.1 p.2 = .ok (decodeCellD p.1 p.2) :=
      decodeCell_ok p.1 p.2 (hs p (by simp)) (hc p (by simp))
    simpa [decodeRowGo, hcell] using
      ih (recInsert acc p.1.name (decodeCellD p.1 p.2))
        (fun q hq => hs q (by simp [hq]))
        (fun q hq => hc q (by simp [hq]))

lemma decodeRows_forall (cols : List Column) (rows : List (List Cell)) (vs : List Value)
    (h : decodeRows cols rows = .ok vs) :
    List.Forall₂
      (fun r v => ∃ fields, decodeRow cols r = .ok fields ∧ v = Value.record fields)
      rows vs := by
  induction rows generalizing vs with
  | nil =>
    simp only [decodeRows] at h
    injection h with h
    subst h
    exact List.Forall₂.nil
  | cons r rest ih =>
    simp only [decodeRows] at h
    cases hr : decodeRow cols r with
    | error e => rw [hr] at h; cases h
    | ok fields =>
      rw [hr] at h
      cases hrest : decodeRows cols rest with
      | error e => rw [hrest] at h; cases h
      | ok vs2 =>
        rw [hrest] at h
        injection h with h
        subst h
        exact List.Forall₂.cons ⟨fields, hr, rfl⟩ (ih vs2 hrest)

lemma decodeRows_append (cols : List Column) (l1 l2 : List (List Cell)) (vs : List Value)
    (h : decodeRows cols l1 = .ok vs) :
    decodeRows cols (l1 ++ l2) =
      match decodeRows cols l2 with
      | .error e => .error e
      | .ok vs2 => .ok (vs ++ vs2) := by
  induction l1 generalizing vs with
  | nil =>
    simp only [decodeRows] at h
    injection h with h
    subst h
    cases h2 : decodeRows cols l2 <;> simp [h2]
  | cons r rest ih =>
    simp only [decodeRows] at h
    cases hr : decodeRow cols r with
    | error e => rw [hr] at h; cases h
    | ok fields =>
      rw [hr] at h
      cases hrest : decodeRows cols rest with
      | error e => rw [hrest] at h; cases h
      | ok vs2 =>
        rw [hrest] at h
        injection h with h
        subst h
        simp only [List.cons_append, decodeRows, hr, List.append_eq]
        rw [ih vs2 hrest]
        cases h2 : decodeRows cols l2 <;> simp [h2]

lemma runStmts_append_ok (db : Db) (input : List Nat) (pre rest : List Stmt)
    (tr : List Event) (outs : List Value)
    (h : runStmts db input pre = (tr, .ok outs)) :
    runStmts db input (pre ++ rest) =
      (tr ++ (runStmts db input rest).1,
        match (runStmts db input rest).2 with
        | .error e => .error e
        | .ok outs2 => .ok (outs ++ outs2)) := by
  induction pre generalizing tr outs with
  | nil =>
    simp only [runStmts, Prod.mk.injEq] at h
    obtain ⟨h1, h2⟩ := h
    subst h1
    injection h2 with h2
    subst h2
    rcases h3 : runStmts db input rest with ⟨tr2, r2⟩
    cases r2 <;> simp [h3]
  | cons s ps ih =>
    rcases hstep : stepStmt db input s with ⟨tr1, r1⟩
    cases r1 with
    | error e =>
      rw [runStmts, hstep] at h
      cases h
    | ok outs1 =>
      rcases hps : runStmts db input ps with ⟨tr2, r2⟩
      rw [runStmts, hstep, hps] at h
      cases r2 with
      | error e => cases h
      | ok outs2 =>
        simp only [Prod.mk.injEq] at h
        obtain ⟨h1, h2⟩ := h
        subst h1
        injection h2 with h2
        subst h2
        have hih := ih tr2 outs2 hps
        rw [List.cons_append, runStmts, hstep, hih]
        rcases h3 : runStmts db input rest with ⟨tr3, r3⟩
        cases r3 <;> simp [h3, List.append_assoc]

lemma stepStmt_select_ok (db : Db) (input : List Nat) (q : String)
    (tr : List Event) (outs : List Value)
    (h : stepStmt db input (Stmt.select q) = (tr, .ok outs)) :
    ∃ v, execute_query db q = .ok v ∧ outs = [v] := by
  simp only [stepStmt] at h
  cases hq : execute_query db q with
  | error e => rw [hq] at h; cases h
  | ok v =>
    rw [hq] at h
    simp only [Prod.mk.injEq] at h
    obtain ⟨-, h2⟩ := h
    injection h2 with h2
    exact ⟨v, rfl, h2.symm⟩

lemma stepStmt_nonselect_ok (db : Db) (input : List Nat) (s : Stmt)
    (tr : List Event) (outs : List Value)
    (hns : ∀ q, s ≠ Stmt.select q)
    (h : stepStmt db input s = (tr, .ok outs)) : outs = [] := by
  cases s with
  | select q => exact absurd rfl (hns q)
  | copy isFrom isProgram q =>
    cases isFrom with
    | false =>
      cases isProgram with
      | false => simp [stepStmt] at h
      | true =>
        cases hq : execute_query db q <;> simp [stepStmt, hq] at h
        simp_all
    | true =>
      cases isProgram with
      | true =>
        cases hq : execute_query db q <;> simp [stepStmt, hq] at h
        simp_all
      | false =>
        cases h1 : db.copyIn q with
        | error e => simp [stepStmt, h1] at h
        | ok u =>
          cases h2 : db.copyWrite q input with
          | error e => simp [stepStmt, h1, h2] at h
          | ok u2 =>
            cases h3 : db.copyFinish q with
            | error e => simp [stepStmt, h1, h2, h3] at h
            | ok u3 =>
              simp [stepStmt, h1, h2, h3] at h
              simp_all
  | other q =>
    cases hq : execute_query db q <;> simp [stepStmt, hq] at h
    simp_all

lemma runStmts_selects (db : Db) (input : List Nat) (stmts : List Stmt)
    (tr : List Event) (outs : List Value)
    (h : runStmts db input stmts = (tr, .ok outs)) :
    specSelectOutputs db stmts = .ok outs := by
  induction stmts generalizing tr outs with
  | nil =>
    simp only [runStmts, Prod.mk.injEq] at h
    obtain ⟨-, h2⟩ := h
    injection h2 with h2
    subst h2
    rfl
  | cons s rest ih =>
    rcases hstep : stepStmt db input s with ⟨tr1, r1⟩
    cases r1 with
    | error e => rw [runStmts, hstep] at h; cases h
    | ok outs1 =>
      rcases hrest : runStmts db input rest with ⟨tr2, r2⟩
      rw [runStmts, hstep, hrest] at h
      cases r2 with
      | error e => cases h
      | ok outs2 =>
        simp only [Prod.mk.injEq] at h
        obtain ⟨-, h2⟩ := h
        injection h2 with h2
        subst h2
        cases s with
        | select q =>
          obtain ⟨v, hv, houts1⟩ := stepStmt_select_ok db input q tr1 outs1 hstep
          subst houts1
          simp only [specSelectOutputs, hv, ih tr2 outs2 hrest]
          rfl
        | copy isFrom isProgram q =>
          have houts1 : outs1 = [] :=
            stepStmt_nonselect_ok db input _ tr1 outs1 (fun _ h => by cases h) hstep
          subst houts1
          simpa only [specSelectOutputs, List.nil_append] using ih tr2 outs2 hrest
        | other q =>
          have houts1 : outs1 = [] :=
            stepStmt_nonselect_ok db input _ tr1 outs1 (fun _ h => by cases h) hstep
          subst houts1
          simpa only [specSelectOutputs, List.nil_append] using ih tr2 outs2 hrest

lemma jsonListToNu_eq (vs : List Json) : jsonListToNu vs = vs.map json_to_nu := by
  induction vs with
  | nil => rfl
  | cons v rest ih => simp [jsonListToNu, ih]

lemma jsonObjToNu_fresh (kvs : List (String × Json)) (acc : List (String × Value))
    (hfresh : ∀ kv ∈ kvs, ∀ a ∈ acc, a.1 ≠ kv.1)
    (hnd : (kvs.map Prod.fst).Nodup) :
    jsonObjToNu acc kvs = acc ++ kvs.map (fun kv => (kv.1, json_to_nu kv.2)) := by
  induction kvs generalizing acc with
  | nil => simp [jsonObjToNu]
  | cons kv rest ih =>
    obtain ⟨k, v⟩ := kv
    rw [List.map_cons] at hnd
    obtain ⟨hnotmem, hnd'⟩ := List.nodup_cons.mp hnd
    have hins : recInsert acc k (json_to_nu v) = acc ++ [(k, json_to_nu v)] :=
      recInsert_fresh acc k _ (fun a ha => hfresh (k, v) (by simp) a ha)
    have hih := ih (acc ++ [(k, json_to_nu v)])
      (by
        intro q hq a ha
        rcases List.mem_append.mp ha with ha2 | ha2
        · exact hfresh q (by simp [hq]) a ha2
        · have ha3 : a = (k, json_to_nu v) := by simpa using ha2
          subst ha3
          show k ≠ q.1
          intro hcontra
          exact hnotmem (by
            rw [hcontra]
            exact List.mem_map.mpr ⟨q, hq, rfl⟩))
      hnd'
    simp only [jsonObjToNu, hins, hih]
    simp

/-! ## Claims -/

/-- Claim C1, counterexample: the claim "exactly one record with one
field per column" fails when two columns share a name.  Decoding the
row of `SELECT 1 AS a, 2 AS a` (two supported int4 columns, both named
`a`) succeeds but produces a record with one field (the later column
overwrote the earlier one, last write wins), not one field per
column. -/
theorem c1_counterexample :
    decodeRow [⟨"a", PgType.int4⟩, ⟨"a", PgType.int4⟩]
        [some (PgValue.int 1), some (PgValue.int 2)]
      = .ok [("a", Value.int 2)]
    ∧ ([("a", Value.int 2)] : List (String × Value)).length ≠
        ([⟨"a", PgType.int4⟩, ⟨"a", PgType.int4⟩] : List Column).length :=
  ⟨rfl, by decide⟩

/-- Claim C1, amended: for every decoded result row whose column names
are pairwise distinct, the Row Decoder produces exactly one record per
row with one field per column, fields in column order (named after
their columns), and any NULL column of supported wire type decodes to
the null node rather than an error; on a column-name collision the
later column overwrites the earlier field (last write wins). -/
theorem c1_row_decoder (cols : List Column) (cells : List Cell)
    (hlen : cols.length = cells.length)
    (hsupp : ∀ c ∈ cols, c.ty.supported = true)
    (hcells : ∀ p ∈ cols.zip cells, cellOk p.1.ty p.2 = true)
    (hnd : (cols.map Column.name).Nodup) :
    decodeRow cols cells =
      .ok ((cols.zip cells).map (fun p => (p.1.name, decodeCellD p.1 p.2)))
    ∧ ((cols.zip cells).map (fun p => (p.1.name, decodeCellD p.1 p.2))).map Prod.fst
        = cols.map Column.name
    ∧ ((cols.zip cells).map (fun p => (p.1.name, decodeCellD p.1 p.2))).length
        = cols.length
    ∧ (∀ p ∈ cols.zip cells, p.2 = none → decodeCellD p.1 p.2 = Value.nothing)
    ∧ (∀ rows vs, decodeRows cols rows = .ok vs →
        List.Forall₂
          (fun r v => ∃ fields, decodeRow cols r = .ok fields ∧ v = Value.record fields)
          rows vs) := by
  have hnames : (cols.zip cells).map (fun p => p.1.name) = cols.map Column.name := by
    have h1 : (cols.zip cells).map Prod.fst = cols :=
      List.map_fst_zip cols cells (le_of_eq hlen)
    rw [show (fun (p : Column × Cell) => p.1.name) = Column.name ∘ Prod.fst from rfl]
    rw [← List.map_map, h1]
  refine ⟨?_, ?_, ?_, ?_, ?_⟩
  · have h := decodeRowGo_eq (cols.zip cells) []
      (fun p hp => by obtain ⟨c, cl⟩ := p; exact hsupp c (List.of_mem_zip hp).1)
      hcells
      (fun p hp a ha => absurd ha (List.not_mem_nil a))
      (by rw [hnames]; exact hnd)
    simpa [decodeRow] using h
  · rw [show (fun (p : Column × Cell) => (p.1.name, decodeCellD p.1 p.2))
        = (fun p => (p.1.name, decodeCellD p.1 p.2)) from rfl]
    rw [List.map_map]
    exact hnames
  · rw [List.length_map, List.length_zip, hlen, Nat.min_self]
  · intro p hp hnone
    rw [hnone]
    exact decodeCellD_none p.1
  · intro rows vs h
    exact decodeRows_forall cols rows vs h

/-- Claim C1, witness at a concrete row: an int4 column `a` holding 5
and a text column `b` holding NULL decode to the two-field record
where `b` is the null node. -/
theorem c1_row_decoder_witness :
    decodeRow [⟨"a", PgType.int4⟩, ⟨"b", PgType.text⟩] [some (PgValue.int 5), none]
      = .ok [("a", Value.int 5), ("b", Value.nothing)] := by
  have h := c1_row_decoder [⟨"a", PgType.int4⟩, ⟨"b", PgType.text⟩]
    [some (PgValue.int 5), none] (by decide) (by decide) (by decide) (by decide)
  exact h.1

/-- Claim C4: a result row containing a column of unsupported wire type
fails to decode with an error message naming both the column and the
type (the message of `main.rs:194-197`), and the statement's decoding
is aborted: the erroring row aborts the whole row list, so the column
is neither omitted nor mistyped. -/
theorem c4_unsupported_column
    (pre : List Column) (precells : List Cell) (nm tyname : String) (cell : Cell)
    (post : List Column) (postcells : List Cell)
    (hlen : pre.length = precells.length)
    (hsupp : ∀ c ∈ pre, c.ty.supported = true)
    (hcells : ∀ p ∈ pre.zip precells, cellOk p.1.ty p.2 = true) :
    decodeRow (pre ++ ⟨nm, PgType.other tyname⟩ :: post) (precells ++ cell :: postcells)
      = .error ("column `" ++ nm ++ "` has unsupported type `" ++ tyname ++ "`")
    ∧ (∀ cols rowsPre row rowsPost vs e,
        decodeRows cols rowsPre = .ok vs → decodeRow cols row = .error e →
          decodeRows cols (rowsPre ++ row :: rowsPost) = .error e) := by
  constructor
  · rw [decodeRow, List.zip_append hlen, List.zip_cons_cons]
    obtain ⟨acc2, hacc⟩ := decodeRowGo_append (pre.zip precells)
      ((⟨nm, PgType.other tyname⟩, cell) :: post.zip postcells) []
      (fun p hp => by obtain ⟨c, cl⟩ := p; exact hsupp c (List.of_mem_zip hp).1)
      hcells
    rw [hacc]
    rfl
  · intro cols rowsPre row rowsPost vs e hok hrow
    rw [decodeRows_append cols rowsPre (row :: rowsPost) vs hok]
    simp [decodeRows, hrow]

/-- Claim C4, witness: a bool column followed by a column `c` of the
unsupported type `macaddr` aborts the row with the error naming `c` and
`macaddr`. -/
theorem c4_unsupported_column_witness :
    decodeRow [⟨"x", PgType.bool⟩, ⟨"c", PgType.other "macaddr"⟩]
        [some (PgValue.boolean true), none]
      = .error "column `c` has unsupported type `macaddr`" := by
  have h := c4_unsupported_column [⟨"x", PgType.bool⟩] [some (PgValue.boolean true)]
    "c" "macaddr" none [] [] (by decide) (by decide) (by decide)
  exact h.1

/-- Claim C2: for every successfully executed script, the result is the
aggregation of the row-producing statements' outputs — unwrapped when
exactly one produced output (`aggregate [v] = v`), a list of lists when
several did, and the empty list when none did; in particular the empty
script succeeds with an empty result. -/
theorem c2_aggregation :
    (∀ (db : Db) (stmts : List Stmt) (input : Value) (tr : List Event) (v : Value),
        run db (.ok stmts) input = (tr, .ok v) →
          ∃ outs, specSelectOutputs db stmts = .ok outs ∧ v = aggregate outs)
    ∧ (∀ (db : Db) (input : Value) (bytes : List Nat),
        coerceInput input = .ok bytes → db.connect = .ok () →
          run db (.ok []) input = ([Event.connect], .ok (Value.list []))) := by
  constructor
  · intro db stmts input tr v h
    cases hin : coerceInput input with
    | error e => simp only [run, hin] at h; simp at h
    | ok bytes =>
      cases hconn : db.connect with
      | error e => simp only [run, hin, hconn] at h; simp at h
      | ok u =>
        rcases hrun : runStmts db bytes stmts with ⟨tr2, r2⟩
        cases r2 with
        | error e => simp only [run, hin, hconn, hrun] at h; simp at h
        | ok outs =>
          simp only [run, hin, hconn, hrun, Prod.mk.injEq] at h
          obtain ⟨-, h2⟩ := h
          injection h2 with h2
          exact ⟨outs, runStmts_selects db bytes stmts tr2 outs hrun, h2.symm⟩
  · intro db input bytes hin hconn
    simp [run, hin, hconn, runStmts, aggregate]

/-- Claim C2, witness: a script with one row-producing statement (on
the trivial oracle, returning zero rows) yields that statement's list
unwrapped, and the empty script yields the empty result. -/
theorem c2_aggregation_witness :
    (∃ outs, specSelectOutputs db0 [Stmt.select "select"] = .ok outs
        ∧ Value.list [] = aggregate outs)
    ∧ run db0 (.ok []) Value.nothing = ([Event.connect], .ok (Value.list [])) :=
  ⟨c2_aggregation.1 db0 [Stmt.select "select"] Value.nothing
      [Event.connect, Event.exec "select"] (Value.list []) rfl,
    c2_aggregation.2 db0 Value.nothing [] rfl rfl⟩

/-- Claim C3 (modelled from the spec, the negotiation living in the
third-party driver): under SSL mode `prefer` the negotiator uses the
TLS attempt first when it succeeds, falls back to plaintext when TLS
fails, and when both attempts fail returns the combined error carrying
both underlying failure messages, neither discarded. -/
theorem c3_prefer_combined :
    (∀ plain : Except String Unit,
        negotiate SslMode.prefer (Except.ok ()) plain = Except.ok ())
    ∧ (∀ e1 : String,
        negotiate SslMode.prefer (Except.error e1) (Except.ok ()) = Except.ok ())
    ∧ (∀ e1 e2 : String,
        negotiate SslMode.prefer (Except.error e1) (Except.error e2)
          = Except.error (ConnError.both e1 e2)
        ∧ e1 ∈ (ConnError.both e1 e2).messages
        ∧ e2 ∈ (ConnError.both e1 e2).messages) := by
  refine ⟨fun plain => rfl, fun e1 => rfl, fun e1 e2 => ⟨rfl, ?_, ?_⟩⟩
  · simp [ConnError.messages]
  · simp [ConnError.messages]

/-- Claim C5: a bulk-copy-out statement (`COPY … TO` a passive sink:
neither `is_from` nor `is_program`) reached after any successfully
executed prefix fails the whole call with the specific not-supported
error, contributing no events and no partial result. -/
theorem c5_copy_out (db : Db) (input : List Nat) (pre post : List Stmt) (q : String)
    (tr : List Event) (outs : List Value)
    (hpre : runStmts db input pre = (tr, .ok outs)) :
    runStmts db input (pre ++ Stmt.copy false false q :: post)
      = (tr, .error "`COPY … TO STDOUT` is not supported") := by
  rw [runStmts_append_ok db input pre (Stmt.copy false false q :: post) tr outs hpre]
  simp [runStmts, stepStmt]

/-- Claim C5, witness: a script consisting of one bulk-copy-out
statement fails with the not-supported error. -/
theorem c5_copy_out_witness :
    runStmts db0 [] [Stmt.copy false false "copy t to stdout"]
      = ([], .error "`COPY … TO STDOUT` is not supported") :=
  c5_copy_out db0 [] [] [] "copy t to stdout" [] [] rfl

/-- Claim C6: a bulk-copy-in statement (`is_from` and not `is_program`)
opens the ingestion channel, writes the entirety of the supplied byte
input into it, finalizes it, and contributes no entry to the output
sequence — both in isolation and within a running script. -/
theorem c6_copy_in (db : Db) (input : List Nat) (q : String)
    (h1 : db.copyIn q = .ok ()) (h2 : db.copyWrite q input = .ok ())
    (h3 : db.copyFinish q = .ok ()) :
    stepStmt db input (Stmt.copy true false q)
      = ([Event.copyOpen q, Event.copyWrite q input, Event.copyFinish q], .ok [])
    ∧ ∀ rest : List Stmt,
        runStmts db input (Stmt.copy true false q :: rest)
          = ([Event.copyOpen q, Event.copyWrite q input, Event.copyFinish q]
              ++ (runStmts db input rest).1,
             (runStmts db input rest).2) := by
  constructor
  · simp [stepStmt, h1, h2, h3]
  · intro rest
    rcases h4 : runStmts db input rest with ⟨tr2, r2⟩
    cases r2 <;> simp [runStmts, stepStmt, h1, h2, h3, h4]

/-- Claim C6, witness: on the trivial oracle the copy-in statement
writes the two supplied bytes and finalizes, producing no output
entry. -/
theorem c6_copy_in_witness :
    stepStmt db0 [7, 8] (Stmt.copy true false "copy t from stdin")
      = ([Event.copyOpen "copy t from stdin", Event.copyWrite "copy t from stdin" [7, 8],
          Event.copyFinish "copy t from stdin"], .ok []) :=
  (c6_copy_in db0 [7, 8] "copy t from stdin" rfl rfl rfl).1

/-- Claim C7: when parsing fails, the whole call aborts with the syntax
error and the trace holds only the connection event — no statement was
executed and no statement event was performed. -/
theorem c7_parse_failure (db : Db) (input : Value) (bytes : List Nat) (e : String)
    (hin : coerceInput input = .ok bytes) (hconn : db.connect = .ok ()) :
    run db (.error e) input = ([Event.connect], .error e) := by
  simp [run, hin, hconn]

/-- Claim C7, witness: a malformed script aborts the call with its
syntax error on the trivial oracle. -/
theorem c7_parse_failure_witness :
    run db0 (.error "syntax error at or near") Value.nothing
      = ([Event.connect], .error "syntax error at or near") :=
  c7_parse_failure db0 Value.nothing [] "syntax error at or near" rfl rfl

/-- Claim C8: statements run strictly in source order; the first
failing statement surfaces its own error and aborts everything after
it (the result does not depend on `post`), while the events of the
already-executed prefix are preserved — nothing is rolled back by this
layer. -/
theorem c8_order_and_abort (db : Db) (input : List Nat) (pre : List Stmt) (s : Stmt)
    (post : List Stmt) (tr tr2 : List Event) (outs : List Value) (e : String)
    (hpre : runStmts db input pre = (tr, .ok outs))
    (hfail : stepStmt db input s = (tr2, .error e)) :
    runStmts db input (pre ++ s :: post) = (tr ++ tr2, .error e) := by
  rw [runStmts_append_ok db input pre (s :: post) tr outs hpre]
  simp [runStmts, hfail]

/-- Claim C8, witness: after an executed first statement, a failing
second statement aborts the third; the first statement's event is
preserved. -/
theorem c8_order_and_abort_witness :
    runStmts db0 [] [Stmt.other "set a", Stmt.copy false false "c", Stmt.select "q"]
      = ([Event.exec "set a"], .error "`COPY … TO STDOUT` is not supported") := by
  have h := c8_order_and_abort db0 [] [Stmt.other "set a"] (Stmt.copy false false "c")
    [Stmt.select "q"] [Event.exec "set a"] [] [] "`COPY … TO STDOUT` is not supported"
    rfl rfl
  simpa using h

/-- Claim C9: JSON documents convert with objects becoming records that
preserve key order, arrays becoming lists, and numbers becoming an
integer when exactly representable in the model's integer, else a
float, else their decimal string. -/
theorem c9_json_conversion :
    (∀ kvs : List (String × Json), (kvs.map Prod.fst).Nodup →
        json_to_nu (Json.obj kvs)
          = Value.record (kvs.map (fun kv => (kv.1, json_to_nu kv.2))))
    ∧ (∀ vs : List Json, json_to_nu (Json.arr vs) = Value.list (vs.map json_to_nu))
    ∧ (∀ n : Int, json_to_nu (Json.num (JNumber.int n)) = Value.int n)
    ∧ (∀ x : Float, json_to_nu (Json.num (JNumber.float x)) = Value.float x)
    ∧ (∀ s : String, json_to_nu (Json.num (JNumber.big s))
        = Value.string (JNumber.big s).to_string) := by
  refine ⟨?_, ?_, fun n => rfl, fun x => rfl, fun s => rfl⟩
  · intro kvs hnd
    rw [json_to_nu,
      jsonObjToNu_fresh kvs [] (fun kv hkv a ha => absurd ha (List.not_mem_nil a)) hnd]
    simp
  · intro vs
    rw [json_to_nu, jsonListToNu_eq]

/-- Claim C9, witness: the object with keys `b` before `a` converts to
the record with the same key order. -/
theorem c9_json_conversion_witness :
    json_to_nu (Json.obj [("b", Json.num (JNumber.int 1)), ("a", Json.null)])
      = Value.record [("b", Value.int 1), ("a", Value.nothing)] := by
  rw [c9_json_conversion.1 [("b", Json.num (JNumber.int 1)), ("a", Json.null)] (by decide)]
  simp [json_to_nu, JNumber.as_i64]

/-- Claim C10: a pipeline input that is neither nothing, a string, nor
binary fails immediately with the error naming the actual input type;
the empty trace shows no connection was attempted and no statement
executed.  A nothing input coerces to the empty byte input. -/
theorem c10_input_type (db : Db) (parsed : Except String (List Stmt)) (v : Value)
    (h : v.acceptedInput = false) :
    run db parsed v
      = ([], .error ("expected `string` or `binary` input, but got `" ++ v.get_type ++ "`"))
    ∧ coerceInput Value.nothing = .ok [] := by
  constructor
  · cases v <;> first | rfl | simp [Value.acceptedInput] at h
  · rfl

/-- Claim C10, witness: a boolean pipeline input fails immediately with
the error naming `bool`, before any connection event. -/
theorem c10_input_type_witness :
    run db0 (.ok []) (Value.bool true)
      = ([], .error "expected `string` or `binary` input, but got `bool`")
    ∧ coerceInput Value.nothing = .ok [] :=
  c10_input_type db0 (.ok []) (Value.bool true) rfl

end PgPlugin
